import Mathlib

/-!
Shallow embedding of the contact-calibration core found in
`Muscollo/Sandbox/sandboxMarkerTrackingContactWholeBody/sandboxCalibrateContact.cpp`.

Doubles are modelled as rationals (`ℚ`): every arithmetic operation the
calibration core performs (addition, subtraction, multiplication, division,
`fmax`, squaring) is rational-valued on rational inputs, and the gravity
norm is carried as a datum rather than recomputed, so no irrational value
arises.  Multibody kinematics is a black box per the design: the world
height of a contact point at a state, as a function of the marker's local
height parameter, is an abstract datum `pointHeight` of the session.
Threads are modelled by an abstract thread-identity type `τ` with decidable
equality, and the thread-keyed model registry (`m_workingModels`) by an
association list; `calc_objective` is embedded in explicit state-passing
style, returning the objective value together with the updated registry.
-/

namespace CalibrateContact

/-- The constant `stiffness_fictitious = 1.0` (N/m) of `contact_force`. -/
def stiffness_fictitious : ℚ := 1

/-- The constant `ground_height = 0` of `contact_force`. -/
def ground_height : ℚ := 0

/-- Embedding of the C++ template `contact_force(stiffness, y)`:
`depth = ground_height - y`, `depth_pos = fmax(0, depth)`, and the returned
normal force is `stiffness * depth_pos + stiffness_fictitious * depth`. -/
def contact_force (stiffness y : ℚ) : ℚ :=
  let depth := ground_height - y
  let depth_pos := max 0 depth
  stiffness * depth_pos + stiffness_fictitious * depth

/-- The lower marker-height bound `lower = -0.06` of `applyMarkerHeight`. -/
def markerHeightLower : ℚ := -6/100

/-- The upper marker-height bound `upper = 0.05` of `applyMarkerHeight`. -/
def markerHeightUpper : ℚ := 5/100

/-- The member `forceScalingFactor = 1e8` of `ContactCalibration`. -/
def forceScalingFactor : ℚ := 100000000

/-- The mutable calibration-relevant state of one `OpenSim::Model` instance:
the local (body-frame) height of marker `i` (`marker.upd_location()[1]`), the
stiffness of contact element `i` (`AckermannVanDenBogert2010Force::stiffness`),
and the mass/gravity data that `calc_objective` reads through
`getTotalMass`/`getGravity().norm()` (untouched by the calibration core). -/
@[ext]
structure Model where
  markerHeights : ℕ → ℚ
  stiffnesses : ℕ → ℚ
  totalMass : ℚ
  gravityNorm : ℚ

/-- The immutable per-session data of `ContactCalibration` over a state type
`σ`: the number of contacts, the time stamp of a state, the black-box
kinematics (`pointHeight s i h` = world height of contact point `i` at state
`s` when marker `i`'s local height is `h`), the experimental vertical-force
spline `m_FySpline`, and the fixed state trajectory `m_statesTraj`. -/
structure Session (σ : Type) where
  numContacts : ℕ
  time : σ → ℚ
  pointHeight : σ → ℕ → ℚ → ℚ
  spline : ℚ → ℚ
  statesTraj : List σ

/-- Writing one marker's local height into the model
(`marker.upd_location()[1] = ...` inside `applyMarkerHeight`). -/
def setMarkerHeight (i : ℕ) (h : ℚ) (m : Model) : Model :=
  { m with markerHeights := Function.update m.markerHeights i h }

/-- Writing one contact element's stiffness into the model
(`contact.set_stiffness(...)`). -/
def setStiffness (i : ℕ) (k : ℚ) (m : Model) : Model :=
  { m with stiffnesses := Function.update m.stiffnesses i k }

/-- Embedding of `ContactCalibration::applyParametersToModel(x, model)`: the
first loop sets marker `icontact`'s height to
`lower + x[icontact] * (upper - lower)` for `icontact < numContacts`; the
second loop sets contact element `icontact`'s stiffness to
`forceScalingFactor * x[icontact + numContacts]`. -/
def applyParametersToModel (n : ℕ) (x : ℕ → ℚ) (model : Model) : Model :=
  let m1 := (List.range n).foldl
    (fun m icontact =>
      setMarkerHeight icontact
        (markerHeightLower +
          x icontact * (markerHeightUpper - markerHeightLower)) m)
    model
  (List.range n).foldl
    (fun m icontact =>
      setStiffness icontact (forceScalingFactor * x (icontact + n)) m)
    m1

/-- Modelled from the spec: `AckermannVanDenBogert2010Force::calcContactForce`
is not among the sources; the spec prescribes summing, over every contact
element, the vertical component of `ContactForceLaw.force` — the contact law
`contact_force` applied to the element's stiffness and the world height of
its contact point at the state.  This is the loop
`for contact: simFy += contact.calcContactForce(state)[1]`. -/
def simFy {σ : Type} (sess : Session σ) (m : Model) (state : σ) : ℚ :=
  (List.range sess.numContacts).foldl
    (fun acc i =>
      acc + contact_force (m.stiffnesses i)
        (sess.pointHeight state i (m.markerHeights i)))
    0

/-- The objective accumulation of `ContactCalibration::calc_objective` after
the per-thread model has been fetched and the parameters applied: sum
`pow(simFy - expFy, 2)` over the state trajectory, then divide by
`mg * m_statesTraj.getSize()` with `mg = totalMass * |gravity|`. -/
def objectiveValue {σ : Type} (sess : Session σ) (m : Model) : ℚ :=
  let obj := sess.statesTraj.foldl
    (fun acc state =>
      acc + (simFy sess m state - sess.spline (sess.time state))^2)
    0
  obj / (m.totalMass * m.gravityNorm * (sess.statesTraj.length : ℚ))

/-- The thread-keyed model registry `m_workingModels`, as an association
list from thread identities to models. -/
abbrev Pool (τ : Type) : Type := List (τ × Model)

/-- Lookup of a thread's entry in the registry. -/
def plook {τ : Type} [DecidableEq τ] (tid : τ) : Pool τ → Option Model
  | [] => none
  | (t, m) :: ps => if t = tid then some m else plook tid ps

/-- The thread identities present in the registry. -/
def keys {τ : Type} (pool : Pool τ) : List τ := pool.map Prod.fst

/-- The registry-population step of `calc_objective`: if the calling thread
has no entry (`m_workingModels.count(thread_id) == 0`), insert a copy of the
canonical model `m_model`; then hand back the calling thread's model. -/
def acquire {τ : Type} [DecidableEq τ] (canonical : Model) (tid : τ)
    (pool : Pool τ) : Model × Pool τ :=
  match plook tid pool with
  | some m => (m, pool)
  | none => (canonical, (tid, canonical) :: pool)

/-- Overwriting the calling thread's registry entry: `applyParametersToModel`
mutates the model held by reference inside `m_workingModels`. -/
def setEntry {τ : Type} [DecidableEq τ] (tid : τ) (m : Model)
    (pool : Pool τ) : Pool τ :=
  pool.map (fun p => if p.1 = tid then (tid, m) else p)

/-- Embedding of `ContactCalibration::calc_objective(x, obj_value)`: fetch
(creating if absent) the calling thread's model, apply the parameters to it
in place, and compute the normalized accumulated squared residual.  Returns
the objective value together with the updated registry. -/
def calc_objective {σ τ : Type} [DecidableEq τ] (sess : Session σ)
    (canonical : Model) (tid : τ) (x : ℕ → ℚ) (pool : Pool τ) :
    ℚ × Pool τ :=
  let a := acquire canonical tid pool
  let m := applyParametersToModel sess.numContacts x a.1
  (objectiveValue sess m, setEntry tid m a.2)

/-- Embedding of `ContactCalibration::printContactComparison(x, filename)`:
apply the parameters to the member `m_model` itself (not to a per-thread
copy), then emit one `(time, simulated Fy, experimental Fy)` row per state.
Returns the emitted table together with the member model as it stands after
the call. -/
def printContactComparison {σ : Type} (sess : Session σ) (x : ℕ → ℚ)
    (canonical : Model) : List (ℚ × ℚ × ℚ) × Model :=
  let m := applyParametersToModel sess.numContacts x canonical
  (sess.statesTraj.map
    (fun state =>
      (sess.time state, simFy sess m state, sess.spline (sess.time state))),
   m)

/-- Written from the spec's words, for the invertibility claim: reading the
set quantities back from the model — marker heights inverted through the
affine map, stiffnesses divided by the scale factor. -/
def readParametersFromModel (n : ℕ) (m : Model) : ℕ → ℚ := fun i =>
  if i < n then
    (m.markerHeights i - markerHeightLower) /
      (markerHeightUpper - markerHeightLower)
  else if i < 2 * n then m.stiffnesses (i - n) / forceScalingFactor
  else 0

/-- A sequence of objective evaluations, each tagged with the identity of
the worker thread issuing it, threaded through the registry. -/
def runCalls {σ τ : Type} [DecidableEq τ] (sess : Session σ)
    (canonical : Model) : List (τ × (ℕ → ℚ)) → Pool τ → Pool τ
  | [], pool => pool
  | c :: cs, pool =>
      runCalls sess canonical cs (calc_objective sess canonical c.1 c.2 pool).2

/-- Registry entries agree with the canonical model on the data the
calibration never writes (mass and gravity); holds of every registry
reachable from the empty one, since entries are copies of `m_model` with
only marker heights and stiffnesses rewritten. -/
def PoolInv {τ : Type} (canonical : Model) (pool : Pool τ) : Prop :=
  ∀ p ∈ pool, p.2.totalMass = canonical.totalMass ∧
    p.2.gravityNorm = canonical.gravityNorm

/-- A tiny concrete session (one contact, one state) used to instantiate
the theorems at concrete inputs. -/
def demoSession : Session ℚ where
  numContacts := 1
  time := fun s => s
  pointHeight := fun s _ h => h + s
  spline := fun _ => 0
  statesTraj := [0]

/-- A concrete canonical model for the demo session. -/
def demoModel : Model where
  markerHeights := fun _ => 0
  stiffnesses := fun _ => 0
  totalMass := 50
  gravityNorm := 981/100

/-! Helper lemmas about folds, parameter application and the registry. -/

lemma foldl_add_eq_sum {α : Type} (f : α → ℚ) :
    ∀ (l : List α) (a : ℚ), l.foldl (fun acc s => acc + f s) a = a + (l.map f).sum := by
  intro l
  induction l with
  | nil => intro a; simp
  | cons s t ih => intro a; simp [ih, add_assoc]

lemma foldl_setMarkerHeight_markerHeights (v : ℕ → ℚ) :
    ∀ (l : List ℕ) (m : Model) (j : ℕ),
      ((l.foldl (fun mm i => setMarkerHeight i (v i) mm) m)).markerHeights j =
        if j ∈ l then v j else m.markerHeights j := by
  intro l
  induction l with
  | nil => intro m j; simp
  | cons i t ih =>
      intro m j
      rw [List.foldl_cons, ih]
      by_cases hjt : j ∈ t
      · simp [hjt]
      · by_cases hji : j = i
        · subst hji
          simp [hjt, setMarkerHeight, Function.update_apply]
        · simp [hjt, hji, setMarkerHeight, Function.update_apply]

lemma foldl_setMarkerHeight_rest (v : ℕ → ℚ) :
    ∀ (l : List ℕ) (m : Model),
      ((l.foldl (fun mm i => setMarkerHeight i (v i) mm) m)).stiffnesses =
          m.stiffnesses ∧
      ((l.foldl (fun mm i => setMarkerHeight i (v i) mm) m)).totalMass =
          m.totalMass ∧
      ((l.foldl (fun mm i => setMarkerHeight i (v i) mm) m)).gravityNorm =
          m.gravityNorm := by
  intro l
  induction l with
  | nil => intro m; simp
  | cons i t ih => intro m; simpa [setMarkerHeight] using ih (setMarkerHeight i (v i) m)

lemma foldl_setStiffness_stiffnesses (v : ℕ → ℚ) :
    ∀ (l : List ℕ) (m : Model) (j : ℕ),
      ((l.foldl (fun mm i => setStiffness i (v i) mm) m)).stiffnesses j =
        if j ∈ l then v j else m.stiffnesses j := by
  intro l
  induction l with
  | nil => intro m j; simp
  | cons i t ih =>
      intro m j
      rw [List.foldl_cons, ih]
      by_cases hjt : j ∈ t
      · simp [hjt]
      · by_cases hji : j = i
        · subst hji
          simp [hjt, setStiffness, Function.update_apply]
        · simp [hjt, hji, setStiffness, Function.update_apply]

lemma foldl_setStiffness_rest (v : ℕ → ℚ) :
    ∀ (l : List ℕ) (m : Model),
      ((l.foldl (fun mm i => setStiffness i (v i) mm) m)).markerHeights =
          m.markerHeights ∧
      ((l.foldl (fun mm i => setStiffness i (v i) mm) m)).totalMass =
          m.totalMass ∧
      ((l.foldl (fun mm i => setStiffness i (v i) mm) m)).gravityNorm =
          m.gravityNorm := by
  intro l
  induction l with
  | nil => intro m; simp
  | cons i t ih => intro m; simpa [setStiffness] using ih (setStiffness i (v i) m)

lemma apply_markerHeights (n : ℕ) (x : ℕ → ℚ) (m : Model) (j : ℕ) :
    (applyParametersToModel n x m).markerHeights j =
      if j < n then
        markerHeightLower + x j * (markerHeightUpper - markerHeightLower)
      else m.markerHeights j := by
  unfold applyParametersToModel
  rw [(foldl_setStiffness_rest _ _ _).1, foldl_setMarkerHeight_markerHeights]
  simp [List.mem_range]

lemma apply_stiffnesses (n : ℕ) (x : ℕ → ℚ) (m : Model) (j : ℕ) :
    (applyParametersToModel n x m).stiffnesses j =
      if j < n then forceScalingFactor * x (j + n) else m.stiffnesses j := by
  unfold applyParametersToModel
  rw [foldl_setStiffness_stiffnesses]
  rw [(foldl_setMarkerHeight_rest _ _ _).1]
  simp [List.mem_range]

lemma apply_totalMass (n : ℕ) (x : ℕ → ℚ) (m : Model) :
    (applyParametersToModel n x m).totalMass = m.totalMass := by
  unfold applyParametersToModel
  rw [(foldl_setStiffness_rest _ _ _).2.1, (foldl_setMarkerHeight_rest _ _ _).2.1]

lemma apply_gravityNorm (n : ℕ) (x : ℕ → ℚ) (m : Model) :
    (applyParametersToModel n x m).gravityNorm = m.gravityNorm := by
  unfold applyParametersToModel
  rw [(foldl_setStiffness_rest _ _ _).2.2, (foldl_setMarkerHeight_rest _ _ _).2.2]

lemma simFy_eq_sum {σ : Type} (sess : Session σ) (m : Model) (state : σ) :
    simFy sess m state =
      ((List.range sess.numContacts).map
        (fun i => contact_force (m.stiffnesses i)
          (sess.pointHeight state i (m.markerHeights i)))).sum := by
  unfold simFy
  rw [foldl_add_eq_sum]
  simp

lemma simFy_congr {σ : Type} (sess : Session σ) (m m' : Model) (state : σ)
    (h : ∀ i, i < sess.numContacts →
      m.stiffnesses i = m'.stiffnesses i ∧
        m.markerHeights i = m'.markerHeights i) :
    simFy sess m state = simFy sess m' state := by
  rw [simFy_eq_sum, simFy_eq_sum]
  refine congrArg List.sum (List.map_congr_left ?_)
  intro i hi
  rw [List.mem_range] at hi
  rw [(h i hi).1, (h i hi).2]

lemma simFy_apply_congr {σ : Type} (sess : Session σ) (x : ℕ → ℚ)
    (m m' : Model) (state : σ) :
    simFy sess (applyParametersToModel sess.numContacts x m) state =
      simFy sess (applyParametersToModel sess.numContacts x m') state := by
  refine simFy_congr sess _ _ state ?_
  intro i hi
  rw [apply_stiffnesses, apply_stiffnesses, apply_markerHeights,
    apply_markerHeights]
  simp [hi]

lemma objectiveValue_apply_congr {σ : Type} (sess : Session σ) (x : ℕ → ℚ)
    (m m' : Model) (hM : m.totalMass = m'.totalMass)
    (hG : m.gravityNorm = m'.gravityNorm) :
    objectiveValue sess (applyParametersToModel sess.numContacts x m) =
      objectiveValue sess (applyParametersToModel sess.numContacts x m') := by
  have hs : ∀ state : σ,
      simFy sess (applyParametersToModel sess.numContacts x m) state =
        simFy sess (applyParametersToModel sess.numContacts x m') state :=
    fun state => simFy_apply_congr sess x m m' state
  unfold objectiveValue
  simp only [hs, apply_totalMass, apply_gravityNorm, hM, hG]

lemma plook_mem {τ : Type} [DecidableEq τ] (tid : τ) :
    ∀ (pool : Pool τ) (m : Model), plook tid pool = some m → (tid, m) ∈ pool := by
  intro pool
  induction pool with
  | nil => intro m h; simp [plook] at h
  | cons p t ih =>
      intro m h
      obtain ⟨tp, mp⟩ := p
      by_cases htp : tp = tid
      · subst htp
        simp [plook] at h
        subst h
        exact List.mem_cons_self _ _
      · rw [plook, if_neg htp] at h
        exact List.mem_cons_of_mem _ (ih m h)

lemma plook_some_mem {τ : Type} [DecidableEq τ] (tid : τ) (pool : Pool τ)
    (m : Model) (h : plook tid pool = some m) : tid ∈ keys pool := by
  have := plook_mem tid pool m h
  exact List.mem_map_of_mem Prod.fst this

lemma plook_eq_none_of_not_mem {τ : Type} [DecidableEq τ] (tid : τ) :
    ∀ pool : Pool τ, tid ∉ keys pool → plook tid pool = none := by
  intro pool
  induction pool with
  | nil => intro _; rfl
  | cons p t ih =>
      intro h
      rw [keys, List.map_cons, List.mem_cons] at h
      push_neg at h
      rw [plook, if_neg (fun he => h.1 he.symm)]
      exact ih h.2

lemma keys_setEntry {τ : Type} [DecidableEq τ] (tid : τ) (m : Model)
    (pool : Pool τ) : keys (setEntry tid m pool) = keys pool := by
  unfold keys setEntry
  rw [List.map_map]
  refine List.map_congr_left ?_
  intro p _
  by_cases h : p.1 = tid <;> simp [h]

lemma length_setEntry {τ : Type} [DecidableEq τ] (tid : τ) (m : Model)
    (pool : Pool τ) : (setEntry tid m pool).length = pool.length := by
  simp [setEntry]

lemma plook_setEntry_self {τ : Type} [DecidableEq τ] (tid : τ) (m : Model) :
    ∀ pool : Pool τ, tid ∈ keys pool →
      plook tid (setEntry tid m pool) = some m := by
  intro pool
  induction pool with
  | nil => intro h; simp [keys] at h
  | cons p t ih =>
      intro h
      obtain ⟨tp, mp⟩ := p
      by_cases htp : tp = tid
      · subst htp
        have hc : ((tp, mp) : τ × Model).1 = tp := rfl
        rw [setEntry, List.map_cons, if_pos hc, plook, if_pos rfl]
      · rw [keys, List.map_cons, List.mem_cons] at h
        rcases h with h | h
        · exact absurd h.symm htp
        · rw [setEntry, List.map_cons]
          simp only [htp, if_false]
          rw [plook, if_neg htp]
          exact ih h

lemma plook_setEntry_ne {τ : Type} [DecidableEq τ] (t' tid : τ) (m : Model)
    (hne : t' ≠ tid) :
    ∀ pool : Pool τ, plook t' (setEntry tid m pool) = plook t' pool := by
  intro pool
  induction pool with
  | nil => rfl
  | cons p t ih =>
      obtain ⟨tp, mp⟩ := p
      by_cases htp : tp = tid
      · subst htp
        rw [setEntry, List.map_cons]
        simp only [if_pos rfl]
        rw [plook, plook, if_neg (fun h => hne h.symm),
          if_neg (fun h => hne h.symm)]
        exact ih
      · rw [setEntry, List.map_cons]
        simp only [htp, if_false]
        rw [plook, plook]
        by_cases he : tp = t'
        · simp [he]
        · rw [if_neg he, if_neg he]
          exact ih

lemma acquire_of_some {τ : Type} [DecidableEq τ] (canonical : Model)
    (tid : τ) (pool : Pool τ) (m : Model) (h : plook tid pool = some m) :
    acquire canonical tid pool = (m, pool) := by
  unfold acquire
  rw [h]

lemma acquire_of_none {τ : Type} [DecidableEq τ] (canonical : Model)
    (tid : τ) (pool : Pool τ) (h : plook tid pool = none) :
    acquire canonical tid pool = (canonical, (tid, canonical) :: pool) := by
  unfold acquire
  rw [h]

lemma acquire_fst {τ : Type} [DecidableEq τ] (canonical : Model) (tid : τ)
    (pool : Pool τ) :
    (acquire canonical tid pool).1 = (plook tid pool).getD canonical := by
  cases h : plook tid pool with
  | none => rw [acquire_of_none canonical tid pool h]; rfl
  | some m => rw [acquire_of_some canonical tid pool m h]; rfl

lemma acquire_mem_keys {τ : Type} [DecidableEq τ] (canonical : Model)
    (tid : τ) (pool : Pool τ) : tid ∈ keys (acquire canonical tid pool).2 := by
  cases h : plook tid pool with
  | none => rw [acquire_of_none canonical tid pool h]; simp [keys]
  | some m =>
      rw [acquire_of_some canonical tid pool m h]
      exact plook_some_mem tid pool m h

lemma acquire_inv {τ : Type} [DecidableEq τ] (canonical : Model) (tid : τ)
    (pool : Pool τ) (hinv : PoolInv canonical pool) :
    (acquire canonical tid pool).1.totalMass = canonical.totalMass ∧
      (acquire canonical tid pool).1.gravityNorm = canonical.gravityNorm := by
  cases h : plook tid pool with
  | none => rw [acquire_of_none canonical tid pool h]; exact ⟨rfl, rfl⟩
  | some m =>
      rw [acquire_of_some canonical tid pool m h]
      exact hinv (tid, m) (plook_mem tid pool m h)

lemma poolInv_acquire {τ : Type} [DecidableEq τ] (canonical : Model)
    (tid : τ) (pool : Pool τ) (hinv : PoolInv canonical pool) :
    PoolInv canonical (acquire canonical tid pool).2 := by
  cases h : plook tid pool with
  | none =>
      rw [acquire_of_none canonical tid pool h]
      intro p hp
      rcases List.mem_cons.mp hp with hp | hp
      · subst hp; exact ⟨rfl, rfl⟩
      · exact hinv p hp
  | some m => rw [acquire_of_some canonical tid pool m h]; exact hinv

lemma poolInv_setEntry {τ : Type} [DecidableEq τ] (canonical : Model)
    (tid : τ) (m : Model) (pool : Pool τ) (hinv : PoolInv canonical pool)
    (hM : m.totalMass = canonical.totalMass)
    (hG : m.gravityNorm = canonical.gravityNorm) :
    PoolInv canonical (setEntry tid m pool) := by
  intro p hp
  rw [setEntry, List.mem_map] at hp
  obtain ⟨q, hq, hqp⟩ := hp
  by_cases h : q.1 = tid
  · rw [if_pos h] at hqp
    subst hqp
    exact ⟨hM, hG⟩
  · rw [if_neg h] at hqp
    subst hqp
    exact hinv q hq

lemma exists_plook_of_mem {τ : Type} [DecidableEq τ] (tid : τ) :
    ∀ pool : Pool τ, tid ∈ keys pool → ∃ m, plook tid pool = some m := by
  intro pool
  induction pool with
  | nil => intro h; simp [keys] at h
  | cons p t ih =>
      intro h
      obtain ⟨tp, mp⟩ := p
      by_cases htp : tp = tid
      · exact ⟨mp, by rw [plook, if_pos htp]⟩
      · rw [keys, List.map_cons, List.mem_cons] at h
        rcases h with h | h
        · exact absurd h.symm htp
        · obtain ⟨m, hm⟩ := ih h
          exact ⟨m, by rw [plook, if_neg htp]; exact hm⟩

lemma calc_objective_fst {σ τ : Type} [DecidableEq τ] (sess : Session σ)
    (canonical : Model) (tid : τ) (x : ℕ → ℚ) (pool : Pool τ) :
    (calc_objective sess canonical tid x pool).1 =
      objectiveValue sess
        (applyParametersToModel sess.numContacts x
          (acquire canonical tid pool).1) := rfl

lemma calc_objective_snd {σ τ : Type} [DecidableEq τ] (sess : Session σ)
    (canonical : Model) (tid : τ) (x : ℕ → ℚ) (pool : Pool τ) :
    (calc_objective sess canonical tid x pool).2 =
      setEntry tid
        (applyParametersToModel sess.numContacts x
          (acquire canonical tid pool).1)
        (acquire canonical tid pool).2 := rfl

lemma plook_calc_objective_ne {σ τ : Type} [DecidableEq τ] (sess : Session σ)
    (canonical : Model) (tid t' : τ) (x : ℕ → ℚ) (pool : Pool τ)
    (hne : t' ≠ tid) :
    plook t' (calc_objective sess canonical tid x pool).2 =
      plook t' pool := by
  rw [calc_objective_snd, plook_setEntry_ne t' tid _ hne]
  cases h : plook tid pool with
  | none =>
      rw [acquire_of_none canonical tid pool h, plook,
        if_neg (fun he => hne he.symm)]
  | some m => rw [acquire_of_some canonical tid pool m h]

lemma length_calc_objective_none {σ τ : Type} [DecidableEq τ]
    (sess : Session σ) (canonical : Model) (tid : τ) (x : ℕ → ℚ)
    (pool : Pool τ) (h : plook tid pool = none) :
    (calc_objective sess canonical tid x pool).2.length = pool.length + 1 := by
  rw [calc_objective_snd, length_setEntry, acquire_of_none canonical tid pool h,
    List.length_cons]

lemma length_calc_objective_some {σ τ : Type} [DecidableEq τ]
    (sess : Session σ) (canonical : Model) (tid : τ) (x : ℕ → ℚ)
    (pool : Pool τ) (m : Model) (h : plook tid pool = some m) :
    (calc_objective sess canonical tid x pool).2.length = pool.length := by
  rw [calc_objective_snd, length_setEntry, acquire_of_some canonical tid pool m h]

lemma keys_calc_objective_none {σ τ : Type} [DecidableEq τ]
    (sess : Session σ) (canonical : Model) (tid : τ) (x : ℕ → ℚ)
    (pool : Pool τ) (h : plook tid pool = none) :
    keys (calc_objective sess canonical tid x pool).2 = tid :: keys pool := by
  rw [calc_objective_snd, keys_setEntry, acquire_of_none canonical tid pool h,
    keys, List.map_cons]
  rfl

lemma poolInv_calc_objective {σ τ : Type} [DecidableEq τ] (sess : Session σ)
    (canonical : Model) (tid : τ) (x : ℕ → ℚ) (pool : Pool τ)
    (hinv : PoolInv canonical pool) :
    PoolInv canonical (calc_objective sess canonical tid x pool).2 := by
  rw [calc_objective_snd]
  refine poolInv_setEntry canonical tid _ _
    (poolInv_acquire canonical tid pool hinv) ?_ ?_
  · rw [apply_totalMass]
    exact (acquire_inv canonical tid pool hinv).1
  · rw [apply_gravityNorm]
    exact (acquire_inv canonical tid pool hinv).2

lemma calc_objective_val {σ τ : Type} [DecidableEq τ] (sess : Session σ)
    (canonical : Model) (tid : τ) (x : ℕ → ℚ) (pool : Pool τ)
    (hinv : PoolInv canonical pool) :
    (calc_objective sess canonical tid x pool).1 =
      objectiveValue sess
        (applyParametersToModel sess.numContacts x canonical) := by
  rw [calc_objective_fst]
  exact objectiveValue_apply_congr sess x _ canonical
    (acquire_inv canonical tid pool hinv).1
    (acquire_inv canonical tid pool hinv).2

lemma runCalls_length {σ τ : Type} [DecidableEq τ] (sess : Session σ)
    (canonical : Model) :
    ∀ (calls : List (τ × (ℕ → ℚ))) (pool : Pool τ),
      (calls.map Prod.fst).Nodup → (∀ c ∈ calls, c.1 ∉ keys pool) →
      (runCalls sess canonical calls pool).length =
        pool.length + calls.length := by
  intro calls
  induction calls with
  | nil => intro pool _ _; simp [runCalls]
  | cons c cs ih =>
      intro pool hnd hfresh
      rw [runCalls]
      have hnone : plook c.1 pool = none :=
        plook_eq_none_of_not_mem c.1 pool (hfresh c (List.mem_cons_self _ _))
      have hndc : (c.1 :: cs.map Prod.fst).Nodup := by
        rw [List.map_cons] at hnd
        exact hnd
      have hnd0 := List.nodup_cons.mp hndc
      have hfresh' : ∀ d ∈ cs,
          d.1 ∉ keys (calc_objective sess canonical c.1 c.2 pool).2 := by
        intro d hd
        rw [keys_calc_objective_none sess canonical c.1 c.2 pool hnone,
          List.mem_cons]
        push_neg
        refine ⟨?_, hfresh d (List.mem_cons_of_mem _ hd)⟩
        intro he
        exact hnd0.1 (he ▸ List.mem_map_of_mem Prod.fst hd)
      rw [ih _ hnd0.2 hfresh',
        length_calc_objective_none sess canonical c.1 c.2 pool hnone,
        List.length_cons]
      omega

/-! Claim theorems. -/

/-- C2 counterexample: the claim asserts that for every stiffness the normal
force is strictly increasing in depth when depth is positive; at stiffness
`-2` the depths `1` and `2` (heights `-1` and `-2`) are both positive, yet
the force at the greater depth is strictly smaller. -/
theorem contact_force_depth_decrease_at_negative_stiffness :
    (0 : ℚ) < ground_height - (-1) ∧
      ground_height - (-1 : ℚ) < ground_height - (-2) ∧
      contact_force (-2) (-2) < contact_force (-2) (-1) := by
  refine ⟨by norm_num [ground_height], by norm_num [ground_height], ?_⟩
  norm_num [contact_force, ground_height, stiffness_fictitious]

/-- C2 (amended: the strict increase in depth additionally assumes a
nonnegative stiffness, as every stiffness the program produces is):
the contact force law computes `depth = ground_height - height` and returns
`stiffness * max 0 depth + stiffness_fictitious * depth`; for `depth ≤ 0`
the normal force equals `stiffness_fictitious * depth` and is non-positive;
for positive depth and nonnegative stiffness the force is strictly
increasing in depth; and for positive depth it is strictly increasing in
stiffness. -/
theorem contact_force_shape :
    (∀ stiffness y : ℚ, contact_force stiffness y =
        stiffness * max 0 (ground_height - y) +
          stiffness_fictitious * (ground_height - y)) ∧
    (∀ stiffness y : ℚ, ground_height - y ≤ 0 →
        contact_force stiffness y =
            stiffness_fictitious * (ground_height - y) ∧
          contact_force stiffness y ≤ 0) ∧
    (∀ stiffness y₁ y₂ : ℚ, 0 ≤ stiffness → 0 < ground_height - y₁ →
        ground_height - y₁ < ground_height - y₂ →
        contact_force stiffness y₁ < contact_force stiffness y₂) ∧
    (∀ s₁ s₂ y : ℚ, s₁ < s₂ → 0 < ground_height - y →
        contact_force s₁ y < contact_force s₂ y) := by
  refine ⟨fun stiffness y => rfl, ?_, ?_, ?_⟩
  · intro stiffness y h
    have e : max 0 (ground_height - y) = 0 := max_eq_left h
    constructor
    · simp only [contact_force, e, mul_zero, zero_add]
    · simp only [contact_force, e, mul_zero, zero_add, stiffness_fictitious]
      linarith
  · intro s y₁ y₂ hs h1 h2
    have e1 : max 0 (ground_height - y₁) = ground_height - y₁ :=
      max_eq_right (le_of_lt h1)
    have e2 : max 0 (ground_height - y₂) = ground_height - y₂ :=
      max_eq_right (by linarith)
    simp only [contact_force, e1, e2, stiffness_fictitious]
    nlinarith
  · intro s₁ s₂ y hs h
    have e : max 0 (ground_height - y) = ground_height - y :=
      max_eq_right (le_of_lt h)
    simp only [contact_force, e, stiffness_fictitious]
    nlinarith

/-- Witness for `contact_force_shape` at concrete inputs: stiffness `3`
with height `1` (no penetration), heights `-1` and `-2` (penetration depths
`1 < 2`), and stiffnesses `3 < 4` at height `-1`. -/
theorem contact_force_shape_witness :
    (ground_height - (1 : ℚ) ≤ 0 ∧
      (contact_force 3 1 = stiffness_fictitious * (ground_height - 1) ∧
        contact_force 3 1 ≤ 0)) ∧
    ((0 : ℚ) ≤ 3 ∧ (0 : ℚ) < ground_height - (-1) ∧
      ground_height - (-1 : ℚ) < ground_height - (-2) ∧
      contact_force 3 (-1) < contact_force 3 (-2)) ∧
    ((3 : ℚ) < 4 ∧ (0 : ℚ) < ground_height - (-1) ∧
      contact_force 3 (-1) < contact_force 4 (-1)) := by
  have h1 : ground_height - (1 : ℚ) ≤ 0 := by norm_num [ground_height]
  have h2 : (0 : ℚ) < ground_height - (-1) := by norm_num [ground_height]
  have h3 : ground_height - (-1 : ℚ) < ground_height - (-2) := by
    norm_num [ground_height]
  exact ⟨⟨h1, contact_force_shape.2.1 3 1 h1⟩,
    ⟨by norm_num, h2, h3,
      contact_force_shape.2.2.1 3 (-1) (-2) (by norm_num) h2 h3⟩,
    ⟨by norm_num, h2, contact_force_shape.2.2.2 3 4 (-1) (by norm_num) h2⟩⟩

/-- C10: for every stiffness the contact force evaluated exactly at the
ground height is exactly `0`, and the force is a continuous function of the
height, so the two branches of the piecewise law agree at touchdown. -/
theorem contact_force_zero_at_touchdown (stiffness : ℚ) :
    contact_force stiffness ground_height = 0 ∧
      Continuous (fun y : ℚ => contact_force stiffness y) := by
  constructor
  · norm_num [contact_force, ground_height]
  · unfold contact_force
    fun_prop

/-- C7: for every `x` and every contact `i < numContacts`, applying the
parameters sets marker `i`'s height to `lower + x[i] * (upper - lower)` and
contact element `i`'s stiffness to `x[numContacts + i]` scaled by the fixed
factor; the embedding is a total function of the model and `x`. -/
theorem applyParameters_formula (n : ℕ) (x : ℕ → ℚ) (m : Model) (i : ℕ)
    (h : i < n) :
    (applyParametersToModel n x m).markerHeights i =
        markerHeightLower + x i * (markerHeightUpper - markerHeightLower) ∧
      (applyParametersToModel n x m).stiffnesses i =
        forceScalingFactor * x (n + i) := by
  rw [apply_markerHeights, apply_stiffnesses, if_pos h, if_pos h,
    Nat.add_comm i n]
  exact ⟨rfl, rfl⟩

/-- Witness for `applyParameters_formula` with one contact and `x = 1/2`. -/
theorem applyParameters_formula_witness :
    (0 : ℕ) < 1 ∧
      ((applyParametersToModel 1 (fun _ => 1/2) demoModel).markerHeights 0 =
          markerHeightLower +
            (1/2) * (markerHeightUpper - markerHeightLower) ∧
        (applyParametersToModel 1 (fun _ => 1/2) demoModel).stiffnesses 0 =
          forceScalingFactor * (1/2)) :=
  ⟨Nat.one_pos, applyParameters_formula 1 (fun _ => 1/2) demoModel 0 Nat.one_pos⟩

/-- C9: parameter components at exactly `0` and exactly `1` are accepted
(the mapping is total) and map marker `i`'s height exactly to the declared
lower and upper physical bounds, respectively. -/
theorem applyParameters_boundary (n : ℕ) (x : ℕ → ℚ) (m : Model) (i : ℕ)
    (h : i < n) :
    (x i = 0 →
        (applyParametersToModel n x m).markerHeights i = markerHeightLower) ∧
      (x i = 1 →
        (applyParametersToModel n x m).markerHeights i = markerHeightUpper) := by
  constructor <;> intro hx <;> rw [apply_markerHeights, if_pos h, hx] <;> ring

/-- Witness for `applyParameters_boundary`: the all-zero vector hits the
lower bound and the all-one vector hits the upper bound. -/
theorem applyParameters_boundary_witness :
    (0 : ℕ) < 1 ∧
      (applyParametersToModel 1 (fun _ => 0) demoModel).markerHeights 0 =
        markerHeightLower ∧
      (applyParametersToModel 1 (fun _ => 1) demoModel).markerHeights 0 =
        markerHeightUpper :=
  ⟨Nat.one_pos,
    (applyParameters_boundary 1 (fun _ => 0) demoModel 0 Nat.one_pos).1 rfl,
    (applyParameters_boundary 1 (fun _ => 1) demoModel 0 Nat.one_pos).2 rfl⟩

/-- C6: for `x` in `[0,1]^(2n)`, applying the parameters and then reading
the set quantities back recovers `x` exactly, and re-applying the read-back
vector reproduces the mutated model exactly (the affine map is exactly
invertible). -/
theorem applyParameters_invertible (n : ℕ) (x : ℕ → ℚ) (m : Model)
    (hx : ∀ i, i < 2 * n → 0 ≤ x i ∧ x i ≤ 1) :
    (∀ i, i < 2 * n →
        readParametersFromModel n (applyParametersToModel n x m) i = x i) ∧
      applyParametersToModel n
          (readParametersFromModel n (applyParametersToModel n x m))
          (applyParametersToModel n x m) =
        applyParametersToModel n x m := by
  have hden : markerHeightUpper - markerHeightLower ≠ 0 := by
    norm_num [markerHeightUpper, markerHeightLower]
  have hF : forceScalingFactor ≠ 0 := by norm_num [forceScalingFactor]
  have hread : ∀ i, i < 2 * n →
      readParametersFromModel n (applyParametersToModel n x m) i = x i := by
    intro i hi
    unfold readParametersFromModel
    by_cases h1 : i < n
    · rw [if_pos h1, apply_markerHeights, if_pos h1]
      have e : markerHeightLower +
          x i * (markerHeightUpper - markerHeightLower) - markerHeightLower =
          x i * (markerHeightUpper - markerHeightLower) := by ring
      rw [e, mul_div_cancel_right₀ _ hden]
    · rw [if_neg h1, if_pos hi, apply_stiffnesses]
      have h2 : i - n < n := by omega
      have h3 : i - n + n = i := by omega
      rw [if_pos h2, h3, mul_div_cancel_left₀ _ hF]
  refine ⟨hread, ?_⟩
  ext j
  · rw [apply_markerHeights]
    by_cases hj : j < n
    · rw [if_pos hj, hread j (by omega), apply_markerHeights, if_pos hj]
    · rw [if_neg hj]
  · rw [apply_stiffnesses]
    by_cases hj : j < n
    · rw [if_pos hj, hread (j + n) (by omega), apply_stiffnesses, if_pos hj]
    · rw [if_neg hj]
  · rw [apply_totalMass]
  · rw [apply_gravityNorm]

/-- Witness for `applyParameters_invertible` with one contact and the
constant vector `1/2`. -/
theorem applyParameters_invertible_witness :
    (∀ i, i < 2 * 1 →
        (0 : ℚ) ≤ (fun _ : ℕ => (1 : ℚ)/2) i ∧
          (fun _ : ℕ => (1 : ℚ)/2) i ≤ 1) ∧
      ((∀ i, i < 2 * 1 →
          readParametersFromModel 1
            (applyParametersToModel 1 (fun _ => (1 : ℚ)/2) demoModel) i =
            (fun _ : ℕ => (1 : ℚ)/2) i) ∧
        applyParametersToModel 1
            (readParametersFromModel 1
              (applyParametersToModel 1 (fun _ => (1 : ℚ)/2) demoModel))
            (applyParametersToModel 1 (fun _ => (1 : ℚ)/2) demoModel) =
          applyParametersToModel 1 (fun _ => (1 : ℚ)/2) demoModel) :=
  ⟨fun i _ => by norm_num,
    applyParameters_invertible 1 (fun _ => (1 : ℚ)/2) demoModel
      (fun i _ => by norm_num)⟩

/-- C1: for every parameter vector, thread and registry satisfying the pool
invariant, and a non-empty trajectory, the objective equals the sum over all
states of the squared residual between the summed vertical contact force and
the experimental force at the state's time, divided by
`(total model weight) * (number of states)`; with an all-zero experimental
signal it equals the sum of squared simulated vertical forces divided by the
same normalizer. -/
theorem calc_objective_formula {σ τ : Type} [DecidableEq τ] (sess : Session σ)
    (canonical : Model) (tid : τ) (x : ℕ → ℚ) (pool : Pool τ)
    (hne : sess.statesTraj ≠ []) (hinv : PoolInv canonical pool) :
    (calc_objective sess canonical tid x pool).1 =
        ((sess.statesTraj.map (fun state =>
            (simFy sess (applyParametersToModel sess.numContacts x canonical)
                state - sess.spline (sess.time state))^2)).sum) /
          (canonical.totalMass * canonical.gravityNorm *
            (sess.statesTraj.length : ℚ)) ∧
      (sess.spline = (fun _ => 0) →
        (calc_objective sess canonical tid x pool).1 =
          ((sess.statesTraj.map (fun state =>
              (simFy sess (applyParametersToModel sess.numContacts x canonical)
                  state)^2)).sum) /
            (canonical.totalMass * canonical.gravityNorm *
              (sess.statesTraj.length : ℚ))) := by
  have hmain : (calc_objective sess canonical tid x pool).1 =
      ((sess.statesTraj.map (fun state =>
          (simFy sess (applyParametersToModel sess.numContacts x canonical)
              state - sess.spline (sess.time state))^2)).sum) /
        (canonical.totalMass * canonical.gravityNorm *
          (sess.statesTraj.length : ℚ)) := by
    rw [calc_objective_val sess canonical tid x pool hinv]
    unfold objectiveValue
    rw [foldl_add_eq_sum, zero_add, apply_totalMass, apply_gravityNorm]
  refine ⟨hmain, fun hz => ?_⟩
  rw [hmain, hz]
  simp

/-- Witness for `calc_objective_formula` on the demo session (one contact,
one state, zero experimental signal, empty registry, parameters `1/2`). -/
theorem calc_objective_formula_witness :
    (demoSession.statesTraj ≠ [] ∧ PoolInv demoModel ([] : Pool ℕ)) ∧
      ((calc_objective demoSession demoModel (0 : ℕ) (fun _ => 1/2) []).1 =
          ((demoSession.statesTraj.map (fun state =>
              (simFy demoSession
                  (applyParametersToModel demoSession.numContacts
                    (fun _ => 1/2) demoModel) state -
                demoSession.spline (demoSession.time state))^2)).sum) /
            (demoModel.totalMass * demoModel.gravityNorm *
              (demoSession.statesTraj.length : ℚ)) ∧
        (demoSession.spline = (fun _ => 0) →
          (calc_objective demoSession demoModel (0 : ℕ) (fun _ => 1/2) []).1 =
            ((demoSession.statesTraj.map (fun state =>
                (simFy demoSession
                    (applyParametersToModel demoSession.numContacts
                      (fun _ => 1/2) demoModel) state)^2)).sum) /
              (demoModel.totalMass * demoModel.gravityNorm *
                (demoSession.statesTraj.length : ℚ)))) := by
  have h1 : demoSession.statesTraj ≠ [] := by simp [demoSession]
  have h2 : PoolInv demoModel ([] : Pool ℕ) := by
    intro p hp
    simp at hp
  exact ⟨⟨h1, h2⟩,
    calc_objective_formula demoSession demoModel 0 (fun _ => 1/2) [] h1 h2⟩

/-- C3: the objective is deterministic. A second sequential call with the
same `x` on the same thread returns the identical value (for any starting
registry); under the pool invariant the value is the same function of `x`
regardless of the calling thread or registry contents; and the invariant is
preserved, so this extends to arbitrarily many repeated calls. -/
theorem calc_objective_deterministic {σ τ : Type} [DecidableEq τ]
    (sess : Session σ) (canonical : Model) (tid tid' : τ) (x : ℕ → ℚ)
    (pool pool' : Pool τ) (hinv : PoolInv canonical pool)
    (hinv' : PoolInv canonical pool') :
    ((calc_objective sess canonical tid x
        ((calc_objective sess canonical tid x pool).2)).1 =
      (calc_objective sess canonical tid x pool).1) ∧
    ((calc_objective sess canonical tid x pool).1 =
      (calc_objective sess canonical tid' x pool').1) ∧
    PoolInv canonical (calc_objective sess canonical tid x pool).2 := by
  refine ⟨?_, ?_, poolInv_calc_objective sess canonical tid x pool hinv⟩
  · have hself : plook tid (calc_objective sess canonical tid x pool).2 =
        some (applyParametersToModel sess.numContacts x
          (acquire canonical tid pool).1) := by
      rw [calc_objective_snd]
      exact plook_setEntry_self tid _ _ (acquire_mem_keys canonical tid pool)
    rw [calc_objective_fst, calc_objective_fst,
      acquire_of_some canonical tid _ _ hself]
    exact objectiveValue_apply_congr sess x _ _
      (apply_totalMass sess.numContacts x (acquire canonical tid pool).1)
      (apply_gravityNorm sess.numContacts x (acquire canonical tid pool).1)
  · rw [calc_objective_val sess canonical tid x pool hinv,
      calc_objective_val sess canonical tid' x pool' hinv']

/-- Witness for `calc_objective_deterministic`: two threads, empty
registries, demo session. -/
theorem calc_objective_deterministic_witness :
    (PoolInv demoModel ([] : Pool ℕ) ∧ PoolInv demoModel ([] : Pool ℕ)) ∧
      (((calc_objective demoSession demoModel (0 : ℕ) (fun _ => 1/2)
          ((calc_objective demoSession demoModel (0 : ℕ) (fun _ => 1/2)
            []).2)).1 =
        (calc_objective demoSession demoModel (0 : ℕ) (fun _ => 1/2) []).1) ∧
      ((calc_objective demoSession demoModel (0 : ℕ) (fun _ => 1/2) []).1 =
        (calc_objective demoSession demoModel (1 : ℕ) (fun _ => 1/2) []).1) ∧
      PoolInv demoModel
        (calc_objective demoSession demoModel (0 : ℕ) (fun _ => 1/2) []).2) := by
  have h : PoolInv demoModel ([] : Pool ℕ) := by
    intro p hp
    simp at hp
  exact ⟨⟨h, h⟩,
    calc_objective_deterministic demoSession demoModel 0 1 (fun _ => 1/2)
      [] [] h h⟩

/-- C4: the registry creates at most one clone per thread identity — after
`N` calls from `N` distinct threads starting from the empty registry it
holds exactly `N` entries; a repeated call from a known thread adds no
entry; a call never touches another thread's entry; and another thread's
objective value is unchanged by it. -/
theorem model_pool_contract {σ τ : Type} [DecidableEq τ] (sess : Session σ)
    (canonical : Model) :
    (∀ calls : List (τ × (ℕ → ℚ)), (calls.map Prod.fst).Nodup →
        (runCalls sess canonical calls ([] : Pool τ)).length = calls.length) ∧
    (∀ (tid : τ) (x : ℕ → ℚ) (pool : Pool τ), tid ∈ keys pool →
        (calc_objective sess canonical tid x pool).2.length = pool.length) ∧
    (∀ (tid t' : τ) (x : ℕ → ℚ) (pool : Pool τ), t' ≠ tid →
        plook t' (calc_objective sess canonical tid x pool).2 =
          plook t' pool) ∧
    (∀ (tid t' : τ) (x x' : ℕ → ℚ) (pool : Pool τ), t' ≠ tid →
        (calc_objective sess canonical t' x'
            ((calc_objective sess canonical tid x pool).2)).1 =
          (calc_objective sess canonical t' x' pool).1) := by
  refine ⟨?_, ?_, ?_, ?_⟩
  · intro calls hnd
    have := runCalls_length sess canonical calls [] hnd
      (by intro c _; simp [keys])
    simpa using this
  · intro tid x pool hmem
    obtain ⟨m, hm⟩ := exists_plook_of_mem tid pool hmem
    exact length_calc_objective_some sess canonical tid x pool m hm
  · intro tid t' x pool hne
    exact plook_calc_objective_ne sess canonical tid t' x pool hne
  · intro tid t' x x' pool hne
    rw [calc_objective_fst, calc_objective_fst, acquire_fst, acquire_fst,
      plook_calc_objective_ne sess canonical tid t' x pool hne]

/-- Witness for `model_pool_contract`: two distinct threads `0` and `1` on
the demo session, starting from the empty registry; a singleton registry for
the reuse part. -/
theorem model_pool_contract_witness :
    ((List.map Prod.fst
          [((0 : ℕ), fun _ : ℕ => (0 : ℚ)), (1, fun _ => 1)]).Nodup ∧
      (runCalls demoSession demoModel
          [((0 : ℕ), fun _ : ℕ => (0 : ℚ)), (1, fun _ => 1)]
          ([] : Pool ℕ)).length = 2) ∧
    ((0 : ℕ) ∈ keys [((0 : ℕ), demoModel)] ∧
      (calc_objective demoSession demoModel (0 : ℕ) (fun _ => 1/2)
          [((0 : ℕ), demoModel)]).2.length = 1) ∧
    ((1 : ℕ) ≠ (0 : ℕ) ∧
      plook (1 : ℕ)
          (calc_objective demoSession demoModel (0 : ℕ) (fun _ => 1/2)
            ([] : Pool ℕ)).2 =
        plook 1 ([] : Pool ℕ)) ∧
    ((calc_objective demoSession demoModel (1 : ℕ) (fun _ => 1/3)
          ((calc_objective demoSession demoModel (0 : ℕ) (fun _ => 1/2)
            ([] : Pool ℕ)).2)).1 =
      (calc_objective demoSession demoModel (1 : ℕ) (fun _ => 1/3)
        ([] : Pool ℕ)).1) := by
  have hnd : (List.map Prod.fst
      [((0 : ℕ), fun _ : ℕ => (0 : ℚ)), (1, fun _ => 1)]).Nodup := by simp
  have hmem : (0 : ℕ) ∈ keys [((0 : ℕ), demoModel)] := by simp [keys]
  have hne : (1 : ℕ) ≠ (0 : ℕ) := one_ne_zero
  exact ⟨⟨hnd, (model_pool_contract demoSession demoModel).1 _ hnd⟩,
    ⟨hmem,
      (model_pool_contract demoSession demoModel).2.1 0 (fun _ => 1/2) _ hmem⟩,
    ⟨hne,
      (model_pool_contract demoSession demoModel).2.2.1 0 1 (fun _ => 1/2)
        [] hne⟩,
    (model_pool_contract demoSession demoModel).2.2.2 0 1 (fun _ => 1/2)
      (fun _ => 1/3) [] hne⟩

/-- C5 counterexample: the diagnostic comparison operation mutates the
canonical model — with the all-zero parameter vector, marker `0`'s height in
the member model after `printContactComparison` is the lower bound `-0.06`,
no longer its original value `0`. -/
theorem printContactComparison_mutates_canonical :
    (printContactComparison demoSession (fun _ => 0)
        demoModel).2.markerHeights 0 ≠
      demoModel.markerHeights 0 := by
  have h2 : (printContactComparison demoSession (fun _ => 0) demoModel).2 =
      applyParametersToModel demoSession.numContacts (fun _ => 0) demoModel :=
    rfl
  rw [h2, apply_markerHeights,
    if_pos (show (0 : ℕ) < demoSession.numContacts by norm_num [demoSession])]
  norm_num [markerHeightLower, markerHeightUpper, demoModel]

/-- C5 (amended: `calc_objective` mutates nothing besides the calling
thread's registry entry, but the diagnostic comparison does mutate the
canonical model, by applying the parameter vector to it): an evaluation
leaves every other thread's registry entry untouched, while
`printContactComparison` leaves the member model with marker heights and
stiffnesses overwritten from `x` and mass/gravity unchanged. -/
theorem frame_conditions {σ τ : Type} [DecidableEq τ] (sess : Session σ)
    (canonical : Model) (tid t' : τ) (x : ℕ → ℚ) (pool : Pool τ) (i : ℕ)
    (hne : t' ≠ tid) (hi : i < sess.numContacts) :
    plook t' (calc_objective sess canonical tid x pool).2 = plook t' pool ∧
    (printContactComparison sess x canonical).2.markerHeights i =
        markerHeightLower + x i * (markerHeightUpper - markerHeightLower) ∧
    (printContactComparison sess x canonical).2.stiffnesses i =
        forceScalingFactor * x (i + sess.numContacts) ∧
    (printContactComparison sess x canonical).2.totalMass =
        canonical.totalMass ∧
    (printContactComparison sess x canonical).2.gravityNorm =
        canonical.gravityNorm := by
  have h2 : (printContactComparison sess x canonical).2 =
      applyParametersToModel sess.numContacts x canonical := rfl
  refine ⟨plook_calc_objective_ne sess canonical tid t' x pool hne,
    ?_, ?_, ?_, ?_⟩
  · rw [h2, apply_markerHeights, if_pos hi]
  · rw [h2, apply_stiffnesses, if_pos hi]
  · rw [h2, apply_totalMass]
  · rw [h2, apply_gravityNorm]

/-- Witness for `frame_conditions`: threads `1 ≠ 0`, contact `0` of the
demo session, empty registry, parameters `1/2`. -/
theorem frame_conditions_witness :
    ((1 : ℕ) ≠ (0 : ℕ) ∧ (0 : ℕ) < demoSession.numContacts) ∧
      (plook (1 : ℕ)
          (calc_objective demoSession demoModel (0 : ℕ) (fun _ => 1/2)
            ([] : Pool ℕ)).2 = plook 1 ([] : Pool ℕ) ∧
      (printContactComparison demoSession (fun _ => 1/2)
          demoModel).2.markerHeights 0 =
        markerHeightLower + (1/2) * (markerHeightUpper - markerHeightLower) ∧
      (printContactComparison demoSession (fun _ => 1/2)
          demoModel).2.stiffnesses 0 =
        forceScalingFactor * (1/2) ∧
      (printContactComparison demoSession (fun _ => 1/2)
          demoModel).2.totalMass = demoModel.totalMass ∧
      (printContactComparison demoSession (fun _ => 1/2)
          demoModel).2.gravityNorm = demoModel.gravityNorm) := by
  have hne : (1 : ℕ) ≠ (0 : ℕ) := one_ne_zero
  have hi : (0 : ℕ) < demoSession.numContacts := by norm_num [demoSession]
  exact ⟨⟨hne, hi⟩,
    frame_conditions demoSession demoModel 0 1 (fun _ => 1/2) [] 0 hne hi⟩

end CalibrateContact
